import Mathlib

/-!
Verification of the AI-Powered Industrial Inspection & Safety Monitoring
System core: the deterministic mock Detector (`src/inspection/vision.py`,
`Detector._mock_detect`) and the rule-based Reasoner
(`src/inspection/reasoning.py`, `Reasoner.analyze` and its helpers).

Numbers: Python floats are modelled as rationals (`ℚ`); the decimal
literals in the source (0.7, 0.25, 0.02, ...) denote the same rational
values here.  Image dimensions and pixel box coordinates are naturals,
cast into `ℚ` where the source performs true division.
-/

/-- Severity levels produced by `Reasoner._estimate_severity`
(the strings "low" / "medium" / "high" in the source). -/
inductive Severity where
  | low
  | medium
  | high
deriving DecidableEq, Repr

/-- Rank of a severity, from the source's
`order = \x7b"low": 0, "medium": 1, "high": 2\x7d` in `_aggregate_severity`. -/
def sevOrder : Severity → ℕ
  | Severity.low => 0
  | Severity.medium => 1
  | Severity.high => 2

/-- One detection record
`\x7b"label": str, "confidence": float, "bbox": [x, y, w, h]\x7d`
as produced by the Detector and consumed by the Reasoner.
The bbox is flattened into the four fields `x`, `y`, `bw`, `bh`. -/
structure Observation where
  label : String
  confidence : ℚ
  x : ℚ
  y : ℚ
  bw : ℚ
  bh : ℚ
deriving DecidableEq, Repr

/-- The `area_ratio` computed in `_estimate_severity`:
`(w * h) / max(1, img_w * img_h)`. -/
def areaRatioOf (d : Observation) (imgW imgH : ℕ) : ℚ :=
  d.bw * d.bh / max 1 ((imgW : ℚ) * (imgH : ℚ))

/-- The `length_ratio` computed in the crack branch of `_estimate_severity`:
`max(w, h) / max(1, max(img_w, img_h))`. -/
def lengthRatioOf (d : Observation) (imgW imgH : ℕ) : ℚ :=
  max d.bw d.bh / max 1 (max (imgW : ℚ) (imgH : ℚ))

/-- `Reasoner._estimate_severity`, translated clause by clause from
`src/inspection/reasoning.py`. -/
def estimateSeverity (d : Observation) (imgW imgH : ℕ) : Severity :=
  let ar := areaRatioOf d imgW imgH
  if d.label = "leak" then
    if d.confidence > 0.7 then Severity.high else Severity.medium
  else if d.label = "crack" then
    let lr := lengthRatioOf d imgW imgH
    if lr > 0.25 ∨ ar > 0.02 then Severity.high
    else if lr > 0.08 then Severity.medium
    else Severity.low
  else if d.label = "corrosion" then
    if ar > 0.06 then Severity.high
    else if ar > 0.02 then Severity.medium
    else Severity.low
  else Severity.low

/-- Reference definition of per-finding severity transcribed from the
spec's own words (section 4.2, "Per-finding severity classification"),
to be compared with the source's `estimateSeverity`. -/
def specSeverity (d : Observation) (imgW imgH : ℕ) : Severity :=
  if d.label = "leak" then
    if d.confidence > 0.70 then Severity.high else Severity.medium
  else if d.label = "crack" then
    let lr := max d.bw d.bh / max 1 (max (imgW : ℚ) (imgH : ℚ))
    let ar := d.bw * d.bh / max 1 ((imgW : ℚ) * (imgH : ℚ))
    if lr > 0.25 ∨ ar > 0.02 then Severity.high
    else if lr > 0.08 then Severity.medium
    else Severity.low
  else if d.label = "corrosion" then
    let ar := d.bw * d.bh / max 1 ((imgW : ℚ) * (imgH : ℚ))
    if ar > 0.06 then Severity.high
    else if ar > 0.02 then Severity.medium
    else Severity.low
  else Severity.low

/-- One record of the static `Reasoner.SOP_DB` table (without its key). -/
structure SopMeta where
  iso : String
  sop : String
  priority : String
deriving DecidableEq, Repr

/-- The `SOP_DB` class attribute of `Reasoner`: `SOP_DB.get(lbl)` as a
lookup returning `none` for labels outside the table. -/
def SOP_DB : String → Option SopMeta := fun lbl =>
  if lbl = "crack" then
    some ⟨"ISO 6508", "Inspect crack length; measure propagation; schedule NDT (ultrasonic).", "P2"⟩
  else if lbl = "corrosion" then
    some ⟨"ISO 9227", "Assess corrosion depth/area; clean and apply corrosion inhibitor; consider replacement.", "P2"⟩
  else if lbl = "leak" then
    some ⟨"ISO 5167", "Isolate line; perform pressure test; immediate repair if active leak.", "P1"⟩
  else none

/-- One entry of the `sop_mappings` list built in `Reasoner.analyze`. -/
structure SopMap where
  label : String
  iso : String
  sop : String
  priority : String
deriving DecidableEq, Repr

/-- The `sop_mappings.append(...)` body in `Reasoner.analyze`:
`meta = SOP_DB.get(lbl, \x7b\x7d)` followed by the three
`meta.get(key, default)` lookups. -/
def sopMappingFor (lbl : String) : SopMap :=
  let meta := SOP_DB lbl
  { label := lbl
    iso := ((meta.map fun m => m.iso).getD "N/A")
    sop := ((meta.map fun m => m.sop).getD "Refer engineering SOP.")
    priority := ((meta.map fun m => m.priority).getD "P3") }

/-- Python rendering of `base.get('sop')` inside an f-string: a missing
key prints as "None". -/
def optStr : Option String → String
  | some s => s
  | none => "None"

/-- `Reasoner._recommendations_for`, translated from the source: the
severity-dependent base messages followed by the confidence caveat. -/
def recommendationsFor (lbl : String) (sev : Severity) (d : Observation) : List String :=
  let sopTxt := optStr ((SOP_DB lbl).map fun m => m.sop)
  (if sev = Severity.high then
    [lbl ++ ": Immediate action — follow SOP: " ++ sopTxt,
     "Schedule shutdown and NDT / specialist inspection within 24 hours."]
   else if sev = Severity.medium then
    [lbl ++ ": Repair or patch and inspect; follow SOP: " ++ sopTxt,
     "Monitor weekly and re-inspect with higher-fidelity sensors."]
   else
    [lbl ++ ": Document and schedule maintenance per SOP: " ++ sopTxt])
  ++ (if d.confidence < 0.75 then
        ["Confidence is moderate — capture higher-resolution image for verification."]
      else [])

/-- `Reasoner._aggregate_severity`: fold over the detections keeping the
worst severity, starting from "low". -/
def aggregateSeverity (ds : List Observation) (imgW imgH : ℕ) : Severity :=
  ds.foldl
    (fun worst d =>
      let s := estimateSeverity d imgW imgH
      if sevOrder worst < sevOrder s then s else worst)
    Severity.low

/-- One step of the `counts[lbl] = counts.get(lbl, 0) + 1` update in
`Reasoner.analyze`, on a dict modelled as `String → Option ℕ`. -/
def bumpCount (m : String → Option ℕ) (lbl : String) : String → Option ℕ :=
  fun k => if k = lbl then some ((m lbl).getD 0 + 1) else m k

/-- The `counts` dict built by the loop in `Reasoner.analyze`. -/
def countsOf (ds : List Observation) : String → Option ℕ :=
  ds.foldl (fun m d => bumpCount m d.label) (fun _ => none)

/-- Number of observations carrying a given label (specification-side
vocabulary for stating facts about `countsOf`). -/
def countLabel : List Observation → String → ℕ
  | [], _ => 0
  | d :: t, lbl => (if d.label = lbl then 1 else 0) + countLabel t lbl

/-- The merged summary dict `\x7b**summary, **counts\x7d` returned by
`Reasoner.analyze`, where `summary = \x7b"total": len(detections)\x7d`:
keys of `counts` shadow the base `"total"` key. -/
def summaryOf (ds : List Observation) : String → Option ℕ :=
  fun k =>
    match countsOf ds k with
    | some n => some n
    | none => if k = "total" then some ds.length else none

/-- The analysis record returned by `Reasoner.analyze`. -/
structure Analysis where
  summary : String → Option ℕ
  severity : Severity
  sop_mappings : List SopMap
  recommendations : List String

/-- `Reasoner.analyze`.  The source builds `counts`, `sop_mappings` and
`recs` in one pass over `detections`; each output is an independent
order-preserving fold, decomposed here per field. -/
def analyze (ds : List Observation) (imgW imgH : ℕ) : Analysis :=
  { summary := summaryOf ds
    severity := aggregateSeverity ds imgW imgH
    sop_mappings := ds.map fun d => sopMappingFor d.label
    recommendations :=
      ds.flatMap fun d => recommendationsFor d.label (estimateSeverity d imgW imgH) d }

lemma sevOrder_le_two (s : Severity) : sevOrder s ≤ 2 := by
  cases s <;> simp [sevOrder]

lemma sevOrder_eq_two (s : Severity) (h : sevOrder s = 2) : s = Severity.high := by
  cases s <;> simp_all [sevOrder]

lemma foldl_worst_order (f : Observation → Severity) :
    ∀ (ds : List Observation) (acc : Severity),
      sevOrder (ds.foldl (fun worst d =>
          if sevOrder worst < sevOrder (f d) then f d else worst) acc)
        = max (sevOrder acc) ((ds.map fun d => sevOrder (f d)).foldr max 0) := by
  intro ds
  induction ds with
  | nil => intro acc; simp
  | cons d t ih =>
    intro acc
    simp only [List.foldl_cons, List.map_cons, List.foldr_cons]
    rw [ih]
    by_cases h : sevOrder acc < sevOrder (f d) <;> simp only [h, if_pos, if_neg, ite_true,
      ite_false] <;> omega

lemma le_foldr_max : ∀ (l : List ℕ) (n : ℕ), n ∈ l → n ≤ l.foldr max 0 := by
  intro l
  induction l with
  | nil => simp
  | cons a t ih =>
    intro n hn
    rcases List.mem_cons.mp hn with h | h
    · subst h; exact le_max_left _ _
    · exact le_trans (ih n h) (le_max_right _ _)

example : estimateSeverity ⟨"leak", 9/10, 10, 10, 50, 40⟩ 800 600 = Severity.high := by
  norm_num [estimateSeverity, areaRatioOf, lengthRatioOf] <;> decide

example : estimateSeverity ⟨"crack", 65/100, 5, 5, 20, 3⟩ 1000 1000 = Severity.low := by
  norm_num [estimateSeverity, areaRatioOf, lengthRatioOf] <;> decide

example : estimateSeverity ⟨"dent", 8/10, 0, 0, 10, 10⟩ 800 600 = Severity.low := by
  norm_num [estimateSeverity, areaRatioOf, lengthRatioOf] <;> decide

/-- Claim C3: for every observation and image dimensions, the per-finding
severity computed by `Reasoner._estimate_severity` equals the reference
definition transcribed from the spec (leak: high iff confidence > 0.70,
else medium; crack: thresholds on length_ratio and area_ratio;
corrosion: thresholds on area_ratio; other labels: low). -/
theorem estimateSeverity_matches_spec :
    ∀ (d : Observation) (iw ih : ℕ), estimateSeverity d iw ih = specSeverity d iw ih := by
  intro d iw ih
  simp only [estimateSeverity, specSeverity, areaRatioOf, lengthRatioOf]
  norm_num

/-- Claim C4: `Reasoner._aggregate_severity` returns the maximum of the
per-finding severities under low < medium < high (expressed via the rank
`sevOrder`), is low on the empty sequence, and is high whenever some
member's severity is high. -/
theorem aggregateSeverity_is_max :
    ∀ (ds : List Observation) (iw ih : ℕ),
      sevOrder (aggregateSeverity ds iw ih)
          = (ds.map fun d => sevOrder (estimateSeverity d iw ih)).foldr max 0
        ∧ aggregateSeverity ([] : List Observation) iw ih = Severity.low
        ∧ ∀ d ∈ ds, estimateSeverity d iw ih = Severity.high →
            aggregateSeverity ds iw ih = Severity.high := by
  intro ds iw ih
  have hagg : aggregateSeverity ds iw ih
      = ds.foldl (fun worst d =>
          if sevOrder worst < sevOrder (estimateSeverity d iw ih)
          then estimateSeverity d iw ih else worst) Severity.low := rfl
  have hfold := foldl_worst_order (fun d => estimateSeverity d iw ih) ds Severity.low
  have hmax : sevOrder (aggregateSeverity ds iw ih)
      = (ds.map fun d => sevOrder (estimateSeverity d iw ih)).foldr max 0 := by
    rw [hagg, hfold]
    have h0 : sevOrder Severity.low = 0 := rfl
    rw [h0, Nat.zero_max]
  refine ⟨hmax, rfl, ?_⟩
  intro d hd hhigh
  apply sevOrder_eq_two
  have hmem : sevOrder (estimateSeverity d iw ih)
      ∈ ds.map fun d => sevOrder (estimateSeverity d iw ih) :=
    List.mem_map_of_mem _ hd
  have h1 := le_foldr_max _ _ hmem
  have h2 := sevOrder_le_two (aggregateSeverity ds iw ih)
  rw [hhigh] at h1
  rw [← hmax] at h1
  have h3 : (2 : ℕ) ≤ sevOrder (aggregateSeverity ds iw ih) := h1
  omega

lemma estimateSeverity_corrosion (d : Observation) (iw ih : ℕ) (h : d.label = "corrosion") :
    estimateSeverity d iw ih =
      (if areaRatioOf d iw ih > 0.06 then Severity.high
       else if areaRatioOf d iw ih > 0.02 then Severity.medium
       else Severity.low) := by
  simp [estimateSeverity, h]

lemma estimateSeverity_crack (d : Observation) (iw ih : ℕ) (h : d.label = "crack") :
    estimateSeverity d iw ih =
      (if lengthRatioOf d iw ih > 0.25 ∨ areaRatioOf d iw ih > 0.02 then Severity.high
       else if lengthRatioOf d iw ih > 0.08 then Severity.medium
       else Severity.low) := by
  simp [estimateSeverity, h]

/-- Claim C5 counterexample: two crack observations on a 100x100 image
where the second has the strictly larger area ratio yet the strictly
lower severity (the crack rule also depends on the length ratio). -/
theorem severity_not_monotone_area :
    (⟨"crack", 9/10, 0, 0, 30, 1⟩ : Observation).label
        = (⟨"crack", 9/10, 0, 0, 8, 8⟩ : Observation).label
    ∧ areaRatioOf ⟨"crack", 9/10, 0, 0, 30, 1⟩ 100 100
        ≤ areaRatioOf ⟨"crack", 9/10, 0, 0, 8, 8⟩ 100 100
    ∧ estimateSeverity ⟨"crack", 9/10, 0, 0, 30, 1⟩ 100 100 = Severity.high
    ∧ estimateSeverity ⟨"crack", 9/10, 0, 0, 8, 8⟩ 100 100 = Severity.low := by
  refine ⟨rfl, by norm_num [areaRatioOf], ?_, ?_⟩
  · norm_num [estimateSeverity, areaRatioOf, lengthRatioOf] <;> decide
  · norm_num [estimateSeverity, areaRatioOf, lengthRatioOf] <;> decide

/-- Claim C5 (amended): severity is monotone in the area ratio for
corrosion, and jointly monotone in the area ratio and the length ratio
for cracks (monotonicity in the area ratio alone fails for cracks). -/
theorem severity_monotone_amended :
    ∀ (d₁ d₂ : Observation) (iw ih : ℕ),
      (d₁.label = "corrosion" → d₂.label = "corrosion" →
        areaRatioOf d₁ iw ih ≤ areaRatioOf d₂ iw ih →
        sevOrder (estimateSeverity d₁ iw ih) ≤ sevOrder (estimateSeverity d₂ iw ih))
      ∧ (d₁.label = "crack" → d₂.label = "crack" →
        areaRatioOf d₁ iw ih ≤ areaRatioOf d₂ iw ih →
        lengthRatioOf d₁ iw ih ≤ lengthRatioOf d₂ iw ih →
        sevOrder (estimateSeverity d₁ iw ih) ≤ sevOrder (estimateSeverity d₂ iw ih)) := by
  intro d₁ d₂ iw ih
  constructor
  · intro h1 h2 har
    rw [estimateSeverity_corrosion d₁ iw ih h1, estimateSeverity_corrosion d₂ iw ih h2]
    split_ifs <;> simp [sevOrder] <;> linarith
  · intro h1 h2 har hlr
    rw [estimateSeverity_crack d₁ iw ih h1, estimateSeverity_crack d₂ iw ih h2]
    have hd : (lengthRatioOf d₁ iw ih > 0.25 ∨ areaRatioOf d₁ iw ih > 0.02) →
        (lengthRatioOf d₂ iw ih > 0.25 ∨ areaRatioOf d₂ iw ih > 0.02) := by
      intro h
      rcases h with h | h
      · exact Or.inl (lt_of_lt_of_le h hlr)
      · exact Or.inr (lt_of_lt_of_le h har)
    have hm : lengthRatioOf d₁ iw ih > 0.08 → lengthRatioOf d₂ iw ih > 0.08 :=
      fun h => lt_of_lt_of_le h hlr
    split_ifs <;> simp [sevOrder] <;> tauto

/-- Claim C5 witness: the amended monotonicity at concrete corrosion and
crack observation pairs. -/
theorem severity_monotone_amended_w :
    sevOrder (estimateSeverity ⟨"corrosion", 9/10, 0, 0, 5, 5⟩ 100 100)
      ≤ sevOrder (estimateSeverity ⟨"corrosion", 9/10, 0, 0, 10, 10⟩ 100 100)
    ∧ sevOrder (estimateSeverity ⟨"crack", 9/10, 0, 0, 10, 1⟩ 100 100)
      ≤ sevOrder (estimateSeverity ⟨"crack", 9/10, 0, 0, 20, 2⟩ 100 100) :=
  ⟨(severity_monotone_amended ⟨"corrosion", 9/10, 0, 0, 5, 5⟩
      ⟨"corrosion", 9/10, 0, 0, 10, 10⟩ 100 100).1 rfl rfl (by norm_num [areaRatioOf]),
   (severity_monotone_amended ⟨"crack", 9/10, 0, 0, 10, 1⟩
      ⟨"crack", 9/10, 0, 0, 20, 2⟩ 100 100).2 rfl rfl (by norm_num [areaRatioOf])
      (by norm_num [lengthRatioOf])⟩

/-- Claim C6 counterexample: a single low-severity crack with confidence
0.8 (at least 0.75) contributes exactly one recommendation, so the
"two or three entries per observation" count fails. -/
theorem recommendations_can_be_single :
    (analyze [⟨"crack", 4/5, 0, 0, 1, 1⟩] 100 100).recommendations.length = 1
    ∧ ¬((analyze [⟨"crack", 4/5, 0, 0, 1, 1⟩] 100 100).recommendations.length = 2
        ∨ (analyze [⟨"crack", 4/5, 0, 0, 1, 1⟩] 100 100).recommendations.length = 3) := by
  have hsev : estimateSeverity ⟨"crack", 4/5, 0, 0, 1, 1⟩ 100 100 = Severity.low := by
    norm_num [estimateSeverity, areaRatioOf, lengthRatioOf] <;> decide
  have hc : ¬((4 : ℚ)/5 < 0.75) := by norm_num
  have h : (analyze [⟨"crack", 4/5, 0, 0, 1, 1⟩] 100 100).recommendations.length = 1 := by
    simp [analyze, hsev, recommendationsFor, hc]
  exact ⟨h, by simp [h]⟩

/-- Claim C6 (amended): the final recommendations sequence is the
concatenation, in observation order, of each observation's entries, and
each observation contributes one to three entries: two base messages for
high or medium severity, one for low, plus one optional confidence
caveat. -/
theorem recommendations_concat_count :
    ∀ (ds : List Observation) (iw ih : ℕ) (lbl : String) (sev : Severity) (d : Observation),
      (analyze ds iw ih).recommendations
          = ds.flatMap (fun d₀ => recommendationsFor d₀.label (estimateSeverity d₀ iw ih) d₀)
        ∧ (recommendationsFor lbl sev d).length
            = (if sev = Severity.low then 1 else 2)
              + (if d.confidence < 0.75 then 1 else 0) := by
  intro ds iw ih lbl sev d
  refine ⟨rfl, ?_⟩
  cases sev <;> by_cases h : d.confidence < 0.75 <;> simp [recommendationsFor, h]

/-- Claim C7: the emitted recommendation messages follow the computed
severity (immediate action plus the 24-hour shutdown message for high,
repair-or-patch plus the weekly reminder for medium, one
document-and-schedule message for low), and the higher-resolution
recapture caveat is appended exactly when confidence is below 0.75. -/
theorem recommendationsFor_structure :
    ∀ (lbl : String) (sev : Severity) (d : Observation),
      recommendationsFor lbl sev d =
        (match sev with
         | Severity.high =>
            [lbl ++ ": Immediate action — follow SOP: "
                ++ optStr ((SOP_DB lbl).map fun m => m.sop),
             "Schedule shutdown and NDT / specialist inspection within 24 hours."]
         | Severity.medium =>
            [lbl ++ ": Repair or patch and inspect; follow SOP: "
                ++ optStr ((SOP_DB lbl).map fun m => m.sop),
             "Monitor weekly and re-inspect with higher-fidelity sensors."]
         | Severity.low =>
            [lbl ++ ": Document and schedule maintenance per SOP: "
                ++ optStr ((SOP_DB lbl).map fun m => m.sop)])
        ++ (if d.confidence < 0.75 then
              ["Confidence is moderate — capture higher-resolution image for verification."]
            else []) := by
  intro lbl sev d
  cases sev <;> rfl

/-- Claim C8: `analyze` produces exactly one `sop_mappings` entry per
observation, in input order; each entry is the `SOP_DB` record for the
observation's label, and labels outside the table resolve to the default
(standard id "N/A", generic procedure text, lowest priority "P3"). -/
theorem sop_mappings_spec :
    ∀ (ds : List Observation) (iw ih : ℕ) (lbl : String),
      (analyze ds iw ih).sop_mappings = ds.map (fun d => sopMappingFor d.label)
      ∧ (analyze ds iw ih).sop_mappings.length = ds.length
      ∧ sopMappingFor "crack"
          = ⟨"crack", "ISO 6508",
             "Inspect crack length; measure propagation; schedule NDT (ultrasonic).", "P2"⟩
      ∧ sopMappingFor "corrosion"
          = ⟨"corrosion", "ISO 9227",
             "Assess corrosion depth/area; clean and apply corrosion inhibitor; consider replacement.",
             "P2"⟩
      ∧ sopMappingFor "leak"
          = ⟨"leak", "ISO 5167",
             "Isolate line; perform pressure test; immediate repair if active leak.", "P1"⟩
      ∧ (lbl ≠ "crack" → lbl ≠ "corrosion" → lbl ≠ "leak" →
          sopMappingFor lbl = ⟨lbl, "N/A", "Refer engineering SOP.", "P3"⟩) := by
  intro ds iw ih lbl
  refine ⟨rfl, ?_, rfl, rfl, rfl, ?_⟩
  · simp [analyze]
  · intro h1 h2 h3
    simp [sopMappingFor, SOP_DB, h1, h2, h3]

/-- Claim C8 witness: the unknown-label default at the concrete label
"dent". -/
theorem sop_mappings_spec_w :
    sopMappingFor "dent" = ⟨"dent", "N/A", "Refer engineering SOP.", "P3"⟩ :=
  (sop_mappings_spec [] 0 0 "dent").2.2.2.2.2 (by decide) (by decide) (by decide)

/-- Claim C4 witness: a single high-severity leak observation (the spec's
single-leak scenario) aggregates to high. -/
theorem aggregateSeverity_is_max_w :
    aggregateSeverity [⟨"leak", 9/10, 10, 10, 50, 40⟩] 800 600 = Severity.high :=
  (aggregateSeverity_is_max [⟨"leak", 9/10, 10, 10, 50, 40⟩] 800 600).2.2
    ⟨"leak", 9/10, 10, 10, 50, 40⟩ (List.mem_singleton.mpr rfl)
    (by norm_num [estimateSeverity, areaRatioOf, lengthRatioOf])

lemma countLabel_pos_iff :
    ∀ (ds : List Observation) (lbl : String),
      0 < countLabel ds lbl ↔ ∃ d ∈ ds, d.label = lbl := by
  intro ds lbl
  induction ds with
  | nil => simp [countLabel]
  | cons d t ih =>
    by_cases hd : d.label = lbl
    · simp [countLabel, hd]
    · simp [countLabel, hd, ih]

lemma countsOf_foldl (k : String) :
    ∀ (ds : List Observation) (m : String → Option ℕ),
      ds.foldl (fun m d => bumpCount m d.label) m k
        = if countLabel ds k = 0 then m k
          else some ((m k).getD 0 + countLabel ds k) := by
  intro ds
  induction ds with
  | nil => intro m; simp [countLabel]
  | cons d t ih =>
    intro m
    rw [List.foldl_cons, ih]
    by_cases hd : d.label = k
    · subst hd
      simp only [countLabel, if_pos rfl, bumpCount]
      split_ifs <;> simp_all <;> omega
    · have hk : ¬(k = d.label) := fun h => hd h.symm
      simp [countLabel, bumpCount, hd, hk]

/-- Claim C10: in the summary returned by `analyze`, the dict merge
`\x7b**summary, **counts\x7d` lets a per-label count shadow the base
"total" entry: when some observation is labelled "total", the reported
"total" is the count of observations with that label; otherwise it is
the sequence length. -/
theorem summary_total_shadowing :
    ∀ (ds : List Observation) (iw ih : ℕ),
      ((∃ d ∈ ds, d.label = "total") →
          (analyze ds iw ih).summary "total" = some (countLabel ds "total"))
      ∧ ((¬ ∃ d ∈ ds, d.label = "total") →
          (analyze ds iw ih).summary "total" = some ds.length) := by
  intro ds iw ih
  have hcc : countsOf ds "total"
      = if countLabel ds "total" = 0 then none
        else some (0 + countLabel ds "total") := by
    simpa [countsOf] using countsOf_foldl "total" ds (fun _ => none)
  constructor
  · intro hex
    have hpos : countLabel ds "total" ≠ 0 := by
      have := (countLabel_pos_iff ds "total").mpr hex
      omega
    simp [analyze, summaryOf, hcc, hpos]
  · intro hnex
    have h0 : countLabel ds "total" = 0 := by
      by_contra h
      exact hnex ((countLabel_pos_iff ds "total").mp (Nat.pos_of_ne_zero h))
    simp [analyze, summaryOf, hcc, h0]

/-- Claim C10 witness: with two observations one of which is labelled
"total", the summary reports 1 (the label count) although the sequence
has length 2; without such a label the summary reports the length. -/
theorem summary_total_shadowing_w :
    (analyze [⟨"total", 1, 0, 0, 0, 0⟩, ⟨"crack", 1, 0, 0, 0, 0⟩] 0 0).summary "total"
        = some (countLabel [⟨"total", 1, 0, 0, 0, 0⟩, ⟨"crack", 1, 0, 0, 0, 0⟩] "total")
    ∧ (analyze [⟨"crack", 1, 0, 0, 0, 0⟩] 0 0).summary "total" = some 1 :=
  ⟨(summary_total_shadowing [⟨"total", 1, 0, 0, 0, 0⟩, ⟨"crack", 1, 0, 0, 0, 0⟩] 0 0).1
      ⟨⟨"total", 1, 0, 0, 0, 0⟩, by simp, rfl⟩,
   (summary_total_shadowing [⟨"crack", 1, 0, 0, 0, 0⟩] 0 0).2 (by simp)⟩

/-! Detector (`src/inspection/vision.py`).  `Detector.detect` with
`use_mock=True` dispatches to `_mock_detect`, which derives a seed from
the SHA-1 digest of the first 1024 pixel bytes and then makes a fixed
sequence of draws from `random.Random(seed)`.

The Mersenne Twister behind `random.Random` and its floating-point
outputs are not bit-level embedded; the generator is modelled as a
seed-indexed family of draw streams (`mkRng : ℕ → RngModel`), one stream
per call site of the source loop, each unit draw lying in [0, 1) as
`random.random` guarantees.  Every quantified theorem below holds for
all such families, hence for the one CPython implements.  SHA-1 itself
is embedded exactly. -/

/-- Left rotation of a 32-bit word (words are naturals reduced mod 2^32). -/
def rotl32 (s x : ℕ) : ℕ :=
  ((x % 2 ^ 32) * 2 ^ s + (x % 2 ^ 32) / 2 ^ (32 - s)) % 2 ^ 32

/-- SHA-1 round function. -/
def sha1F (t b c d : ℕ) : ℕ :=
  if t < 20 then (b &&& c) ||| ((b ^^^ 0xFFFFFFFF) &&& d)
  else if t < 40 then b ^^^ c ^^^ d
  else if t < 60 then (b &&& c) ||| (b &&& d) ||| (c &&& d)
  else b ^^^ c ^^^ d

/-- SHA-1 round constants. -/
def sha1K (t : ℕ) : ℕ :=
  if t < 20 then 0x5A827999
  else if t < 40 then 0x6ED9EBA1
  else if t < 60 then 0x8F1BBCDC
  else 0xCA62C1D6

/-- SHA-1 message padding: 0x80, zeros to 56 mod 64, then the bit length
as eight big-endian bytes. -/
def sha1Pad (msg : List ℕ) : List ℕ :=
  let len := msg.length
  let zeros := (119 - len % 64) % 64
  let bitLen := 8 * len
  msg ++ [128] ++ List.replicate zeros 0 ++
    [bitLen / 2 ^ 56 % 256, bitLen / 2 ^ 48 % 256, bitLen / 2 ^ 40 % 256,
     bitLen / 2 ^ 32 % 256, bitLen / 2 ^ 24 % 256, bitLen / 2 ^ 16 % 256,
     bitLen / 2 ^ 8 % 256, bitLen % 256]

/-- Sixteen big-endian 32-bit words of one 64-byte block. -/
def wordsOf (block : List ℕ) : List ℕ :=
  (List.range 16).map fun i =>
    block.getD (4 * i) 0 * 2 ^ 24 + block.getD (4 * i + 1) 0 * 2 ^ 16 +
      block.getD (4 * i + 2) 0 * 2 ^ 8 + block.getD (4 * i + 3) 0

/-- SHA-1 message schedule: extend 16 words to 80. -/
def sha1Extend (ws : List ℕ) : List ℕ :=
  (List.range 64).foldl
    (fun acc _ =>
      acc ++ [rotl32 1 (acc.getD (acc.length - 3) 0 ^^^ acc.getD (acc.length - 8) 0 ^^^
        acc.getD (acc.length - 14) 0 ^^^ acc.getD (acc.length - 16) 0)])
    ws

/-- One SHA-1 block compression. -/
def sha1Compress (hs : ℕ × ℕ × ℕ × ℕ × ℕ) (block : List ℕ) : ℕ × ℕ × ℕ × ℕ × ℕ :=
  let w := sha1Extend (wordsOf block)
  let (h0, h1, h2, h3, h4) := hs
  let st := (List.range 80).foldl
    (fun st t =>
      let (a, b, c, d, e) := st
      let temp := (rotl32 5 a + sha1F t b c d + e + sha1K t + w.getD t 0) % 2 ^ 32
      (temp, a, rotl32 30 b, c, d))
    (h0, h1, h2, h3, h4)
  let (a, b, c, d, e) := st
  ((h0 + a) % 2 ^ 32, (h1 + b) % 2 ^ 32, (h2 + c) % 2 ^ 32,
   (h3 + d) % 2 ^ 32, (h4 + e) % 2 ^ 32)

/-- The seed of `_mock_detect`: `int(hashlib.sha1(buf).hexdigest()[:8], 16)`.
The first eight hex digits of the digest are exactly the first output
word `h0`, printed big-endian. -/
def sha1Seed (msg : List ℕ) : ℕ :=
  let padded := sha1Pad msg
  let nBlocks := padded.length / 64
  let final := (List.range nBlocks).foldl
    (fun hs i => sha1Compress hs ((padded.drop (64 * i)).take 64))
    (0x67452301, 0xEFCDAB89, 0x98BADCFE, 0x10325476, 0xC3D2E1F0)
  final.1

/-- The draws `_mock_detect` makes from one `random.Random(seed)`
instance, split into one stream per call site of the source loop:
`nDraw` is the index drawn by `rng.choices([0,1,2,3], weights=[20,50,20,10])`,
`labelDraw i` the i-th `rng.choice(SUPPORTED)`, and the remaining
streams the unit interval draws behind the i-th `rng.uniform` calls for
confidence, box width, box height, x and y. -/
structure RngModel where
  nDraw : Fin 4
  labelDraw : ℕ → Fin 3
  confDraw : ℕ → ℚ
  wDraw : ℕ → ℚ
  hDraw : ℕ → ℚ
  xDraw : ℕ → ℚ
  yDraw : ℕ → ℚ

/-- The contract of `random.random`: every unit draw lies in [0, 1). -/
def RngModel.valid (r : RngModel) : Prop :=
  ∀ i, (0 ≤ r.confDraw i ∧ r.confDraw i < 1) ∧ (0 ≤ r.wDraw i ∧ r.wDraw i < 1) ∧
    (0 ≤ r.hDraw i ∧ r.hDraw i < 1) ∧ (0 ≤ r.xDraw i ∧ r.xDraw i < 1) ∧
    (0 ≤ r.yDraw i ∧ r.yDraw i < 1)

/-- The `SUPPORTED` class attribute of `Detector`. -/
def SUPPORTED : List String := ["crack", "corrosion", "leak"]

/-- `rng.choice(self.SUPPORTED)` resolved at index `i` of `SUPPORTED`. -/
def labelName (i : Fin 3) : String :=
  if i.val = 0 then "crack" else if i.val = 1 then "corrosion" else "leak"

/-- `rng.uniform(a, b) = a + (b - a) * rng.random()` with unit draw `t`. -/
def unif (a b t : ℚ) : ℚ := a + (b - a) * t

/-- `round(x, 2)`: rounding to two decimals (Python breaks exact ties to
even; ties never arise on the draws this model quantifies over, and no
theorem below depends on the tie direction). -/
def round2 (q : ℚ) : ℚ := round (q * 100) / 100

/-- The label-dependent width fraction of `_mock_detect`:
crack [0.08, 0.4], corrosion [0.05, 0.25], leak [0.05, 0.18]. -/
def fracW (label : String) (t : ℚ) : ℚ :=
  if label = "crack" then unif 0.08 0.4 t
  else if label = "corrosion" then unif 0.05 0.25 t
  else unif 0.05 0.18 t

/-- The label-dependent height fraction of `_mock_detect`:
crack [0.01, 0.05], corrosion [0.05, 0.25], leak [0.05, 0.12]. -/
def fracH (label : String) (t : ℚ) : ℚ :=
  if label = "crack" then unif 0.01 0.05 t
  else if label = "corrosion" then unif 0.05 0.25 t
  else unif 0.05 0.12 t

/-- `bw = int(w * rng.uniform(lo, hi))`: truncation of a non-negative
float is the floor. -/
def boxW (label : String) (w : ℕ) (t : ℚ) : ℕ := ⌊(w : ℚ) * fracW label t⌋₊

/-- `bh = int(h_img * rng.uniform(lo, hi))`. -/
def boxH (label : String) (hImg : ℕ) (t : ℚ) : ℕ := ⌊(hImg : ℚ) * fracH label t⌋₊

/-- `int(rng.uniform(0, max(1, dim - bsize)))`; the subtraction and max
are taken in `ℚ`, which agrees with the Python int arithmetic. -/
def posIn (dim bsize : ℕ) (s : ℚ) : ℕ :=
  ⌊unif 0 (max 1 ((dim : ℚ) - (bsize : ℚ))) s⌋₊

/-- One iteration of the `for i in range(n)` loop of `_mock_detect`. -/
def mkObs (rng : RngModel) (w hImg : ℕ) (i : ℕ) : Observation :=
  let label := labelName (rng.labelDraw i)
  let confidence := round2 (unif 0.6 0.98 (rng.confDraw i))
  let bw := boxW label w (rng.wDraw i)
  let bh := boxH label hImg (rng.hDraw i)
  let x := posIn w bw (rng.xDraw i)
  let y := posIn hImg bh (rng.yDraw i)
  ⟨label, confidence, (x : ℚ), (y : ℚ), (bw : ℚ), (bh : ℚ)⟩

/-- `Detector._mock_detect`: seed from the SHA-1 of the first 1024 pixel
bytes, observation count from the weighted choice, then the generation
loop.  `mkRng` is the seed-to-draw-stream family modelling
`random.Random(seed)`. -/
def mockDetect (mkRng : ℕ → RngModel) (pixelBytes : List ℕ) (w hImg : ℕ) : List Observation :=
  let buf := pixelBytes.take 1024
  let rng := mkRng (sha1Seed buf)
  let n := rng.nDraw.val
  (List.range n).map (mkObs rng w hImg)

/-- A concrete draw-stream family: one observation, all unit draws 0,
always the first label. -/
def zeroRng : RngModel :=
  ⟨1, fun _ => 0, fun _ => 0, fun _ => 0, fun _ => 0, fun _ => 0, fun _ => 0⟩

/-- Claim C2: `_mock_detect` is a pure function of the image's pixel
content and dimensions.  Stated for any seed-to-draw-stream family
`mkRng` (the fixed deterministic PRNG algorithm): two byte contents that
agree on the seeded 1024-byte prefix — in particular, equal contents —
yield identical observation sequences; there is no other input. -/
theorem mockDetect_deterministic :
    ∀ (mkRng : ℕ → RngModel) (b₁ b₂ : List ℕ) (w hImg : ℕ),
      b₁.take 1024 = b₂.take 1024 →
      mockDetect mkRng b₁ w hImg = mockDetect mkRng b₂ w hImg := by
  intro mkRng b₁ b₂ w hImg hpre
  simp only [mockDetect]
  rw [hpre]

/-- Claim C2 witness: two concrete byte contents agreeing on the first
1024 bytes produce the same detections. -/
theorem mockDetect_deterministic_w :
    mockDetect (fun _ => zeroRng) (List.replicate 1025 0) 3 3
      = mockDetect (fun _ => zeroRng) (List.replicate 1024 0 ++ [5]) 3 3 :=
  mockDetect_deterministic (fun _ => zeroRng) (List.replicate 1025 0)
    (List.replicate 1024 0 ++ [5]) 3 3
    (by
      have h1 : (List.replicate 1025 (0 : ℕ)).take 1024 = List.replicate 1024 (0 : ℕ) := by
        rw [List.take_replicate]; norm_num
      have h2 : (List.replicate 1024 (0 : ℕ) ++ [5]).take 1024
          = List.replicate 1024 (0 : ℕ) := by
        have h3 := List.take_left (List.replicate 1024 (0 : ℕ)) [5]
        rwa [List.length_replicate] at h3
      rw [h1, h2])

/-- Claim C1 counterexample: a zero-width, zero-height image is not
rejected: `_mock_detect` has no raise statement and returns an ordinary
observation list (here one observation with a zero-size box). -/
theorem mockDetect_zero_size_returns :
    mockDetect (fun _ => zeroRng) [] 0 0 = [⟨"crack", 3/5, 0, 0, 0, 0⟩] := by
  have hr : List.range 1 = [0] := rfl
  simp [mockDetect, mkObs, boxW, boxH, posIn, fracW, fracH, labelName, zeroRng, unif, hr,
    round2]
  norm_num [round_eq]

/-- Claim C1 (amended): the Detector raises no error at all; on a
zero-width (resp. zero-height) image it returns the seeded number of
observations whose box width (resp. height) is zero. -/
theorem mockDetect_zero_dims_ok :
    ∀ (mkRng : ℕ → RngModel) (pixelBytes : List ℕ) (dim : ℕ),
      (mockDetect mkRng pixelBytes 0 dim).length
          = (mkRng (sha1Seed (pixelBytes.take 1024))).nDraw.val
      ∧ (∀ o ∈ mockDetect mkRng pixelBytes 0 dim, o.bw = 0)
      ∧ (∀ o ∈ mockDetect mkRng pixelBytes dim 0, o.bh = 0) := by
  intro mkRng pb dim
  refine ⟨by simp [mockDetect], ?_, ?_⟩
  · intro o ho
    simp only [mockDetect, List.mem_map] at ho
    obtain ⟨i, _, rfl⟩ := ho
    simp [mkObs, boxW]
  · intro o ho
    simp only [mockDetect, List.mem_map] at ho
    obtain ⟨i, _, rfl⟩ := ho
    simp [mkObs, boxH]

/-- Claim C1 witness: the amended behaviour at the concrete zero-width
image: one observation, box width zero. -/
theorem mockDetect_zero_dims_ok_w :
    (mockDetect (fun _ => zeroRng) [] 0 5).length = 1
    ∧ (⟨"crack", 3/5, 0, 0, 0, 0⟩ : Observation).bw = 0 := by
  have h := mockDetect_zero_dims_ok (fun _ => zeroRng) [] 5
  have hl : mockDetect (fun _ => zeroRng) [] 0 5 = [⟨"crack", 3/5, 0, 0, 0, 0⟩] := by
    have hr : List.range 1 = [0] := rfl
    simp [mockDetect, mkObs, boxW, boxH, posIn, fracW, fracH, labelName, zeroRng, unif, hr,
      round2]
    norm_num [round_eq]
  exact ⟨h.1.trans rfl, h.2.1 ⟨"crack", 3/5, 0, 0, 0, 0⟩ (by rw [hl]; exact List.mem_singleton.mpr rfl)⟩

lemma unif_nonneg_le (a b t : ℚ) (ha : 0 ≤ a) (hab : a ≤ b) (ht0 : 0 ≤ t) (ht1 : t < 1) :
    0 ≤ unif a b t ∧ unif a b t ≤ b := by
  unfold unif
  constructor
  · nlinarith
  · nlinarith

lemma fracW_bounds (label : String) (t : ℚ) (ht0 : 0 ≤ t) (ht1 : t < 1) :
    0 ≤ fracW label t ∧ fracW label t < 1 := by
  unfold fracW
  split_ifs
  all_goals
    refine ⟨(unif_nonneg_le _ _ _ (by norm_num) (by norm_num) ht0 ht1).1,
      lt_of_le_of_lt (unif_nonneg_le _ _ _ (by norm_num) (by norm_num) ht0 ht1).2 (by norm_num)⟩

lemma fracH_bounds (label : String) (t : ℚ) (ht0 : 0 ≤ t) (ht1 : t < 1) :
    0 ≤ fracH label t ∧ fracH label t < 1 := by
  unfold fracH
  split_ifs
  all_goals
    refine ⟨(unif_nonneg_le _ _ _ (by norm_num) (by norm_num) ht0 ht1).1,
      lt_of_le_of_lt (unif_nonneg_le _ _ _ (by norm_num) (by norm_num) ht0 ht1).2 (by norm_num)⟩

lemma boxW_lt (label : String) (w : ℕ) (hw : 1 ≤ w) (t : ℚ) (ht0 : 0 ≤ t) (ht1 : t < 1) :
    boxW label w t < w := by
  unfold boxW
  have hb := fracW_bounds label t ht0 ht1
  have hwpos : (0 : ℚ) < (w : ℚ) := by exact_mod_cast hw
  rw [Nat.floor_lt (mul_nonneg (Nat.cast_nonneg w) hb.1)]
  exact mul_lt_of_lt_one_right hwpos hb.2

lemma boxH_lt (label : String) (hImg : ℕ) (hh : 1 ≤ hImg) (t : ℚ) (ht0 : 0 ≤ t) (ht1 : t < 1) :
    boxH label hImg t < hImg := by
  unfold boxH
  have hb := fracH_bounds label t ht0 ht1
  have hpos : (0 : ℚ) < (hImg : ℚ) := by exact_mod_cast hh
  rw [Nat.floor_lt (mul_nonneg (Nat.cast_nonneg hImg) hb.1)]
  exact mul_lt_of_lt_one_right hpos hb.2

lemma side_fit (dim bsize : ℕ) (hb : bsize < dim) (s : ℚ) (hs0 : 0 ≤ s) (hs1 : s < 1) :
    posIn dim bsize s + bsize ≤ dim := by
  unfold posIn
  have h1 : (1 : ℚ) ≤ (dim : ℚ) - (bsize : ℚ) := by
    have hc : ((bsize : ℚ)) + 1 ≤ (dim : ℚ) := by exact_mod_cast hb
    linarith
  rw [max_eq_right h1]
  have hMpos : (0 : ℚ) < (dim : ℚ) - (bsize : ℚ) := lt_of_lt_of_le one_pos h1
  have hu : unif 0 ((dim : ℚ) - (bsize : ℚ)) s = ((dim : ℚ) - (bsize : ℚ)) * s := by
    unfold unif; ring
  have hx : ⌊unif 0 ((dim : ℚ) - (bsize : ℚ)) s⌋₊ < dim - bsize := by
    rw [Nat.floor_lt (by rw [hu]; exact mul_nonneg hMpos.le hs0)]
    rw [hu]
    have hM : ((dim - bsize : ℕ) : ℚ) = (dim : ℚ) - (bsize : ℚ) := by
      push_cast [Nat.cast_sub hb.le]
      ring
    rw [hM]
    exact mul_lt_of_lt_one_right hMpos hs1
  omega

lemma mkObs_contained (rng : RngModel) (w hImg : ℕ) (i : ℕ) (hv : rng.valid)
    (hw : 1 ≤ w) (hh : 1 ≤ hImg) :
    0 ≤ (mkObs rng w hImg i).x ∧ 0 ≤ (mkObs rng w hImg i).y
    ∧ (mkObs rng w hImg i).x + (mkObs rng w hImg i).bw ≤ (w : ℚ)
    ∧ (mkObs rng w hImg i).y + (mkObs rng w hImg i).bh ≤ (hImg : ℚ) := by
  obtain ⟨hconf, hwd, hhd, hxd, hyd⟩ := hv i
  have hbw : boxW (labelName (rng.labelDraw i)) w (rng.wDraw i) < w :=
    boxW_lt _ _ hw _ hwd.1 hwd.2
  have hbh : boxH (labelName (rng.labelDraw i)) hImg (rng.hDraw i) < hImg :=
    boxH_lt _ _ hh _ hhd.1 hhd.2
  have hfit1 := side_fit w _ hbw (rng.xDraw i) hxd.1 hxd.2
  have hfit2 := side_fit hImg _ hbh (rng.yDraw i) hyd.1 hyd.2
  refine ⟨?_, ?_, ?_, ?_⟩
  · simp [mkObs]
  · simp [mkObs]
  · simp only [mkObs]
    exact_mod_cast hfit1
  · simp only [mkObs]
    exact_mod_cast hfit2

/-- Claim C9: for every image the spec admits (both dimensions at least
one) and every draw stream satisfying the unit-interval contract, every
generated bounding box lies inside the image:
`0 ≤ x`, `0 ≤ y`, `x + width ≤ image_width`, `y + height ≤ image_height`. -/
theorem mockDetect_bbox_contained :
    ∀ (mkRng : ℕ → RngModel) (pixelBytes : List ℕ) (w hImg : ℕ),
      (mkRng (sha1Seed (pixelBytes.take 1024))).valid → 1 ≤ w → 1 ≤ hImg →
      ∀ o ∈ mockDetect mkRng pixelBytes w hImg,
        0 ≤ o.x ∧ 0 ≤ o.y ∧ o.x + o.bw ≤ (w : ℚ) ∧ o.y + o.bh ≤ (hImg : ℚ) := by
  intro mkRng pb w hImg hv hw hh o ho
  simp only [mockDetect, List.mem_map] at ho
  obtain ⟨i, _, rfl⟩ := ho
  exact mkObs_contained _ w hImg i hv hw hh

/-- Claim C9 witness: containment of the single box generated on a
10x10 image by the concrete all-zero draw family. -/
theorem mockDetect_bbox_contained_w :
    (0 : ℚ) ≤ (⟨"crack", 3/5, 0, 0, 0, 0⟩ : Observation).x
    ∧ (0 : ℚ) ≤ (⟨"crack", 3/5, 0, 0, 0, 0⟩ : Observation).y
    ∧ (⟨"crack", 3/5, 0, 0, 0, 0⟩ : Observation).x
        + (⟨"crack", 3/5, 0, 0, 0, 0⟩ : Observation).bw ≤ ((10 : ℕ) : ℚ)
    ∧ (⟨"crack", 3/5, 0, 0, 0, 0⟩ : Observation).y
        + (⟨"crack", 3/5, 0, 0, 0, 0⟩ : Observation).bh ≤ ((10 : ℕ) : ℚ) :=
  mockDetect_bbox_contained (fun _ => zeroRng) [] 10 10
    (by intro i; norm_num [zeroRng]) (by norm_num) (by norm_num)
    ⟨"crack", 3/5, 0, 0, 0, 0⟩
    (by
      have hr : List.range 1 = [0] := rfl
      have hl : mockDetect (fun _ => zeroRng) [] 10 10 = [⟨"crack", 3/5, 0, 0, 0, 0⟩] := by
        simp [mockDetect, mkObs, boxW, boxH, posIn, fracW, fracH, labelName, zeroRng, unif, hr,
          round2]
        norm_num [round_eq]
      rw [hl]
      exact List.mem_singleton.mpr rfl)
